import Mathlib

/-!
ckman: ZooKeeper controller (`controller/zookeeper.go`)

A shallow embedding of the two HTTP handlers `GetStatus` and
`GetReplicatedTableStatus` and of the helper `getZkStatus`.

Conventions of the embedding.

* A Go `string` is a Lean `String`.  `strings.Index` and the slice expression
  `s[:hi]` count in the same unit, so the value of `s[:strings.Index(s, sep)]`
  does not depend on that unit; positions are counted in characters here.
* A Go `error` is represented by its message, the text that `%v` prints.
* The collaborators that live outside `controller/zookeeper.go` (the `model`
  return codes and messages, the cluster map `clickhouse.CkClusters`, the HTTP
  client, the JSON decoder and the `zookeeper` service) are the fields of an
  environment `Env`; within one request each of them is a function of its
  arguments.
* A handler run is described by `Run`: the calls it made to its collaborators,
  in order, the envelopes it handed to `model.WrapMsg`, in order, and whether it
  ended in a run-time panic.
-/

namespace Ckman

/-- A Go `error`, represented by its message. -/
abbrev Error := String

deriving instance DecidableEq for Except

/-- A Go `[]byte`. -/
abbrev Bytes := List (Fin 256)

/-- The constant `ZkStatusDefaultPort`. -/
def ZkStatusDefaultPort : Int := 8080

namespace strings

/-- Scan for the first position at or after `i` where `substr` starts; `-1` when there is none. -/
def indexFrom (substr : List Char) : List Char → Nat → Int
  | [], i => if substr.isPrefixOf [] then (i : Int) else -1
  | c :: cs, i => if substr.isPrefixOf (c :: cs) then (i : Int) else indexFrom substr cs (i + 1)

/-- Go `strings.Index(s, substr)`: the index of the first instance of `substr` in `s`,
or `-1` if `substr` is not present in `s`. -/
def Index (s substr : String) : Int := indexFrom substr.data s.data 0

end strings

/-- The Go slice expression `s[:hi]`; `none` is the run-time panic
"slice bounds out of range", raised unless `0 ≤ hi ≤ len(s)`. -/
def sliceTo (s : String) (hi : Int) : Option String :=
  if 0 ≤ hi ∧ hi ≤ (s.length : Int) then some ⟨s.data.take hi.toNat⟩ else none

/-- The record `model.ZkStatusRsp`, with the fields listed in the handler's response
documentation; `F` stands for `float64`. -/
structure ZkStatusRsp (F : Type) where
  Host : String
  Version : String
  ServerState : String
  PeerState : String
  AvgLatency : F
  ApproximateDataSize : Int
  ZnodeCount : Int
deriving DecidableEq, Repr

/-- The zero value of `model.ZkStatusRsp`, which `make` puts in every slot. -/
def ZkStatusRsp.zero (F : Type) [Zero F] : ZkStatusRsp F :=
  { Host := "", Version := "", ServerState := "", PeerState := "",
    AvgLatency := 0, ApproximateDataSize := 0, ZnodeCount := 0 }

/-- A replica of a shard; only `HostName` is read by the controller. -/
structure CkReplica where
  HostName : String
deriving DecidableEq, Repr

/-- A shard: its replicas, in configuration order. -/
structure CkShard where
  Replicas : List CkReplica
deriving DecidableEq, Repr

/-- The fields of `model.CKManClickHouseConfig` that the controller reads. -/
structure CKManClickHouseConfig where
  ZkNodes : List String
  Shards : List CkShard
deriving DecidableEq, Repr

/-- The record `model.ZkReplicatedTableStatusRsp`; `T` is the type of the table-status payload. -/
structure ZkReplicatedTableStatusRsp (T : Type) where
  Header : List (List String)
  Tables : T
deriving DecidableEq, Repr

/-- The `interface{}` value handed to `model.WrapMsg` as its last argument. -/
inductive Entity (F T : Type) where
  | detail (text : String)
  | err (e : Error)
  | zkList (records : List (ZkStatusRsp F))
  | resp (matrix : ZkReplicatedTableStatusRsp T)
deriving DecidableEq, Repr

/-- One invocation `model.WrapMsg(c, code, msg, data)`: the envelope sent to the caller. -/
structure Envelope (F T : Type) where
  code : Int
  msg : String
  data : Entity F T
deriving DecidableEq, Repr

/-- A call from a handler to one of its collaborators. -/
inductive Call where
  | getZkStatus (host : String) (port : Int)
  | GetZkService (clusterName : String)
  | GetReplicatedTableStatus (conf : CKManClickHouseConfig)
deriving DecidableEq, Repr

/-- What a handler did: collaborator calls and `WrapMsg` envelopes, each in order,
and whether the handler ended in a run-time panic. -/
structure Run (F T : Type) where
  calls : List Call
  wrote : List (Envelope F T)
  panicked : Bool
deriving DecidableEq, Repr

/-- An `*http.Request`: method and URL. -/
structure Request where
  Method : String
  URL : String
deriving DecidableEq, Repr

/-- An `*http.Response`; `Body` is what `ioutil.ReadAll(response.Body)` returns. -/
structure Response where
  Status : String
  StatusCode : Int
  Body : Except Error Bytes

/-- A step of `getZkStatus` that goes through package `net/http`. -/
inductive HttpCall where
  | NewRequest (method url : String)
  | Do (request : Request)
deriving DecidableEq, Repr

/-- The object returned by `zookeeper.GetZkService`, reduced to the method the controller
calls.  The method is handed `&conf`; it is taken to read the configuration only. -/
structure ZkService (T : Type) where
  GetReplicatedTableStatus : CKManClickHouseConfig → Except Error T

/-- The collaborators of the controller. -/
structure Env (F T : Type) where
  SUCCESS : Int
  GET_ZK_STATUS_FAIL : Int
  GET_ZK_TABLE_STATUS_FAIL : Int
  GetMsg : Int → String
  Load : String → Option CKManClickHouseConfig
  NewRequest : String → String → Except Error Request
  Do : Request → Except Error Response
  Unmarshal : Bytes → ZkStatusRsp F → ZkStatusRsp F
  GetZkService : String → Except Error (ZkService T)

variable {F T : Type}

/-- The URL built by `fmt.Sprintf("http://%s:%d/commands/mntr", host, port)`. -/
def mntrURL (host : String) (port : Int) : String :=
  "http://" ++ host ++ ":" ++ toString port ++ "/commands/mntr"

/-- The function `getZkStatus(host, port)`: the returned pair `(body, err)` as an `Except`,
together with the `net/http` steps taken. -/
def getZkStatus (env : Env F T) (host : String) (port : Int) :
    Except Error Bytes × List HttpCall :=
  let url := mntrURL host port
  match env.NewRequest "GET" url with
  | .error err => (.error err, [.NewRequest "GET" url])
  | .ok request =>
    match env.Do request with
    | .error err => (.error err, [.NewRequest "GET" url, .Do request])
    | .ok response =>
      if response.StatusCode ≠ 200 then
        (.error response.Status, [.NewRequest "GET" url, .Do request])
      else
        match response.Body with
        | .error err => (.error err, [.NewRequest "GET" url, .Do request])
        | .ok body => (.ok body, [.NewRequest "GET" url, .Do request])

/-- Lines 59-60 of `GetStatus`: decode the body into `tmp`, then cut `tmp.Version` at the
index of `"--"`; `none` is the panic of the slice expression. -/
def decodeStatus (env : Env F T) (body : Bytes) (tmp : ZkStatusRsp F) : Option (ZkStatusRsp F) :=
  let tmp := env.Unmarshal body tmp
  match sliceTo tmp.Version (strings.Index tmp.Version "--") with
  | none => none
  | some version => some { tmp with Version := version }

/-- The `for index, node := range conf.ZkNodes` loop of `GetStatus` followed by the final
`WrapMsg`; `zkList` is the slice being filled and `calls` the calls made so far. -/
def GetStatus.loop [Zero F] (env : Env F T) :
    List String → Nat → List (ZkStatusRsp F) → List Call → Run F T
  | [], _, zkList, calls =>
    { calls := calls
      wrote := [⟨env.SUCCESS, env.GetMsg env.SUCCESS, .zkList zkList⟩]
      panicked := false }
  | node :: rest, index, zkList, calls =>
    let tmp : ZkStatusRsp F := { ZkStatusRsp.zero F with Host := node }
    let calls := calls ++ [.getZkStatus node ZkStatusDefaultPort]
    match (getZkStatus env node ZkStatusDefaultPort).1 with
    | .error err =>
      { calls := calls
        wrote := [⟨env.GET_ZK_STATUS_FAIL, env.GetMsg env.GET_ZK_STATUS_FAIL,
          .detail ("get zookeeper node " ++ node ++ " satus fail: " ++ err)⟩]
        panicked := false }
    | .ok body =>
      match decodeStatus env body tmp with
      | none => { calls := calls, wrote := [], panicked := true }
      | some tmp => GetStatus.loop env rest (index + 1) (zkList.set index tmp) calls

/-- The handler `GetStatus`, for the request whose path parameter is `clusterName`. -/
def GetStatus [Zero F] (env : Env F T) (clusterName : String) : Run F T :=
  match env.Load clusterName with
  | none =>
    { calls := []
      wrote := [⟨env.GET_ZK_STATUS_FAIL, env.GetMsg env.GET_ZK_STATUS_FAIL,
        .detail ("cluster " ++ clusterName ++ " does not exist")⟩]
      panicked := false }
  | some conf =>
    GetStatus.loop env conf.ZkNodes 0 (List.replicate conf.ZkNodes.length (ZkStatusRsp.zero F)) []

/-- The record that one pass of the loop body stores for `node` (line 61); `none` when the
pass does not get that far, because the query failed or the slice expression panicked. -/
def nodeRecord [Zero F] (env : Env F T) (node : String) : Option (ZkStatusRsp F) :=
  match (getZkStatus env node ZkStatusDefaultPort).1 with
  | .error _ => none
  | .ok body => decodeStatus env body { ZkStatusRsp.zero F with Host := node }

/-- The call `getZkStatus(node, ZkStatusDefaultPort)` of line 53. -/
def nodeCall (node : String) : Call := .getZkStatus node ZkStatusDefaultPort

/-- The inner loop `for replicaIndex, replica := range shard.Replicas`. -/
def replicasLoop : List CkReplica → Nat → List String → List String
  | [], _, replicas => replicas
  | replica :: rest, replicaIndex, replicas =>
    replicasLoop rest (replicaIndex + 1) (replicas.set replicaIndex replica.HostName)

/-- The outer loop `for shardIndex, shard := range conf.Shards`. -/
def headerLoop : List CkShard → Nat → List (List String) → List (List String)
  | [], _, header => header
  | shard :: rest, shardIndex, header =>
    let replicas := replicasLoop shard.Replicas 0 (List.replicate shard.Replicas.length "")
    headerLoop rest (shardIndex + 1) (header.set shardIndex replicas)

/-- Lines 125-132 of `GetReplicatedTableStatus`: the header of the matrix. -/
def buildHeader (conf : CKManClickHouseConfig) : List (List String) :=
  headerLoop conf.Shards 0 (List.replicate conf.Shards.length [])

/-- The handler `GetReplicatedTableStatus`, for the request whose path parameter is
`clusterName`. -/
def GetReplicatedTableStatus (env : Env F T) (clusterName : String) : Run F T :=
  match env.Load clusterName with
  | none =>
    { calls := []
      wrote := [⟨env.GET_ZK_TABLE_STATUS_FAIL, env.GetMsg env.GET_ZK_TABLE_STATUS_FAIL,
        .detail ("cluster " ++ clusterName ++ " does not exist")⟩]
      panicked := false }
  | some conf =>
    match env.GetZkService clusterName with
    | .error err =>
      { calls := [.GetZkService clusterName]
        wrote := [⟨env.GET_ZK_TABLE_STATUS_FAIL, env.GetMsg env.GET_ZK_TABLE_STATUS_FAIL,
          .detail ("get zookeeper service fail: " ++ err)⟩]
        panicked := false }
    | .ok zkService =>
      match zkService.GetReplicatedTableStatus conf with
      | .error err =>
        { calls := [.GetZkService clusterName, .GetReplicatedTableStatus conf]
          wrote := [⟨env.GET_ZK_TABLE_STATUS_FAIL, env.GetMsg env.GET_ZK_TABLE_STATUS_FAIL,
            .err err⟩]
          panicked := false }
      | .ok tables =>
        let header := buildHeader conf
        let resp : ZkReplicatedTableStatusRsp T := { Header := header, Tables := tables }
        { calls := [.GetZkService clusterName, .GetReplicatedTableStatus conf]
          wrote := [⟨env.SUCCESS, env.GetMsg env.SUCCESS, .resp resp⟩]
          panicked := false }

/-! ## Sample deployments -/

/-- A toy decoder for the sample deployments: three bodies carry a version, every other body
leaves `tmp` as it is (nothing decoded, so the version stays empty). -/
def sampleUnmarshal (body : Bytes) (tmp : ZkStatusRsp Int) : ZkStatusRsp Int :=
  if body = [1] then { tmp with Version := "3.6.2--abcdef123", ServerState := "leader" }
  else if body = [2] then { tmp with Version := "3.6.3--0f1e2d", ServerState := "follower" }
  else if body = [3] then { tmp with Version := "3.6.2", ServerState := "follower" }
  else tmp

/-- The answer of the network to a GET on `url`: the entry of `table`, or a refused connection. -/
def sampleTransport (table : List (String × Except Error Response)) (url : String) :
    Except Error Response :=
  match table.lookup url with
  | some answer => answer
  | none => .error "connection refused"

/-- A deployment with one cluster, `test`, made of the ZooKeeper nodes `nodes` and the shards
`shards`; the diagnostic endpoints answer as `table` says and the table-status payload is
`tables`.  The numeric codes are sample values. -/
def sampleEnv (nodes : List String) (shards : List CkShard)
    (table : List (String × Except Error Response)) (tables : Except Error (List String)) :
    Env Int (List String) where
  SUCCESS := 200
  GET_ZK_STATUS_FAIL := 5080
  GET_ZK_TABLE_STATUS_FAIL := 5081
  GetMsg := fun code =>
    if code = 200 then "ok" else if code = 5080 then "get zk status fail"
    else if code = 5081 then "get zk table status fail" else "unknown"
  Load := fun name => if name = "test" then some { ZkNodes := nodes, Shards := shards } else none
  NewRequest := fun method url => .ok { Method := method, URL := url }
  Do := fun request => sampleTransport table request.URL
  Unmarshal := sampleUnmarshal
  GetZkService := fun _ => .ok { GetReplicatedTableStatus := fun _ => tables }

/-- A 200 answer with the given body. -/
def ok200 (body : Bytes) : Except Error Response :=
  .ok { Status := "200 OK", StatusCode := 200, Body := .ok body }

/-- The configuration of the healthy deployment: two ZooKeeper nodes, one shard with the
replicas `ck1` and `ck2`. -/
def healthyConf : CKManClickHouseConfig :=
  { ZkNodes := ["zk1", "zk2"], Shards := [⟨[⟨"ck1"⟩, ⟨"ck2"⟩]⟩] }

/-- Both nodes healthy. -/
def healthyEnv : Env Int (List String) :=
  sampleEnv healthyConf.ZkNodes healthyConf.Shards
    [("http://zk1:8080/commands/mntr", ok200 [1]), ("http://zk2:8080/commands/mntr", ok200 [2])]
    (.ok ["t1", "t2"])

/-- A 503 answer. -/
def unavailable503 : Except Error Response :=
  .ok { Status := "503 Service Unavailable", StatusCode := 503, Body := .ok [] }

/-- One node; it answers 200 and reports the version `3.6.2`, without delimiter. -/
def plainVersionEnv : Env Int (List String) :=
  sampleEnv ["zk1"] [] [("http://zk1:8080/commands/mntr", ok200 [3])] (.ok [])

/-- One node; it answers 200 with a body that holds no version field. -/
def noVersionEnv : Env Int (List String) :=
  sampleEnv ["zk1"] [] [("http://zk1:8080/commands/mntr", ok200 [4])] (.ok [])

/-- Two nodes; the first answers 200 and reports the version `3.6.2`, the second refuses
the connection. -/
def refusedSecondEnv : Env Int (List String) :=
  sampleEnv ["zk1", "zk2"] [] [("http://zk1:8080/commands/mntr", ok200 [3])] (.ok [])

/-- Three nodes; the first is healthy, the second answers 200 with a body that holds no
version field, the third answers 503. -/
def lateFailureEnv : Env Int (List String) :=
  sampleEnv ["zk1", "zk2", "zk3"] []
    [("http://zk1:8080/commands/mntr", ok200 [1]), ("http://zk2:8080/commands/mntr", ok200 [4]),
     ("http://zk3:8080/commands/mntr", unavailable503)] (.ok [])

/-- One node, which refuses the connection. -/
def unreachableEnv : Env Int (List String) :=
  sampleEnv ["zk1"] [] [] (.ok [])

/-- One node, which answers 503. -/
def errorResponseEnv : Env Int (List String) :=
  sampleEnv ["zk1"] [] [("http://zk1:8080/commands/mntr", unavailable503)] (.ok [])

/-- The healthy deployment with another node list and another table-status payload. -/
def otherPayloadEnv : Env Int (List String) :=
  sampleEnv ["zk9"] [⟨[⟨"ck1"⟩, ⟨"ck2"⟩]⟩] [] (.ok ["t7"])

/-- The coordination client fails when asked for the table status. -/
def upstreamFailureEnv : Env Int (List String) :=
  sampleEnv ["zk1"] [⟨[⟨"ck1"⟩, ⟨"ck2"⟩]⟩] [] (.error "zk: connection closed")

/-! ## Auxiliary lemmas -/

theorem set_length_append {α : Type} (pre : List α) (z v : α) (tail : List α) :
    (pre ++ z :: tail).set pre.length v = pre ++ v :: tail := by
  induction pre with
  | nil => rfl
  | cons a pre ih => simp [ih]

theorem replicasLoop_fill (rs : List CkReplica) (pre : List String) :
    replicasLoop rs pre.length (pre ++ List.replicate rs.length "")
      = pre ++ rs.map (fun r => r.HostName) := by
  induction rs generalizing pre with
  | nil => simp [replicasLoop]
  | cons r rs ih =>
    have h := ih (pre ++ [r.HostName])
    simp only [List.length_append, List.length_singleton, List.append_assoc,
      List.singleton_append] at h
    simp only [replicasLoop, List.length_cons, List.replicate_succ, set_length_append,
      List.map_cons]
    exact h

theorem headerLoop_fill (shards : List CkShard) (pre : List (List String)) :
    headerLoop shards pre.length (pre ++ List.replicate shards.length [])
      = pre ++ shards.map (fun s => s.Replicas.map (fun r => r.HostName)) := by
  induction shards generalizing pre with
  | nil => simp [headerLoop]
  | cons s shards ih =>
    have h := ih (pre ++ [s.Replicas.map (fun r => r.HostName)])
    simp only [List.length_append, List.length_singleton, List.append_assoc,
      List.singleton_append] at h
    have hr := replicasLoop_fill s.Replicas []
    simp only [List.length_nil, List.nil_append] at hr
    simp only [headerLoop, List.length_cons, List.replicate_succ, set_length_append,
      List.map_cons, hr]
    exact h

theorem buildHeader_eq_map (conf : CKManClickHouseConfig) :
    buildHeader conf = conf.Shards.map (fun s => s.Replicas.map (fun r => r.HostName)) := by
  have h := headerLoop_fill conf.Shards []
  simpa [buildHeader] using h

theorem indexFrom_spec (sub : List Char) (l : List Char) (i : Nat) :
    (strings.indexFrom sub l i = -1 ∧ ¬ sub <:+: l) ∨
    (∃ p r, l = p ++ sub ++ r ∧ strings.indexFrom sub l i = ((i + p.length : Nat) : Int) ∧
      ∀ p1 r1, l = p1 ++ sub ++ r1 → p.length ≤ p1.length) := by
  induction l generalizing i with
  | nil =>
    by_cases hs : sub = []
    · right
      refine ⟨[], [], by simp [hs], by simp [strings.indexFrom, hs], by simp⟩
    · left
      refine ⟨by simp [strings.indexFrom, hs], ?_⟩
      intro h
      exact hs (List.infix_nil.mp h)
  | cons c cs ih =>
    by_cases hp : sub <+: c :: cs
    · right
      obtain ⟨r, hr⟩ := hp
      refine ⟨[], r, by simp [hr], ?_, by simp⟩
      have : sub.isPrefixOf (c :: cs) = true := List.isPrefixOf_iff_prefix.mpr ⟨r, hr⟩
      simp [strings.indexFrom, this]
    · have hb : sub.isPrefixOf (c :: cs) = false := by
        cases hq : sub.isPrefixOf (c :: cs) with
        | false => rfl
        | true => exact absurd (List.isPrefixOf_iff_prefix.mp hq) hp
      rcases ih (i + 1) with ⟨h1, h2⟩ | ⟨p, r, h1, h2, h3⟩
      · left
        refine ⟨by simp [strings.indexFrom, hb, h1], ?_⟩
        intro h
        rcases List.infix_cons_iff.mp h with h | h
        · exact hp h
        · exact h2 h
      · right
        refine ⟨c :: p, r, by simp [h1], ?_, ?_⟩
        · simp only [strings.indexFrom, hb, h2, List.length_cons]
          simp
          omega
        · intro p1 r1 h
          cases p1 with
          | nil => exact absurd ⟨r1, by simpa using h.symm⟩ hp
          | cons a p1 =>
            simp only [List.cons_append, List.cons.injEq] at h
            have := h3 p1 r1 h.2
            simp only [List.length_cons]
            omega

/-- A string that contains the delimiter is cut just before its first occurrence. -/
theorem sliceTo_Index_of_contains (v : String) (h : ∃ p r : String, v = p ++ "--" ++ r) :
    ∃ parsed rest : String, sliceTo v (strings.Index v "--") = some parsed ∧
      v = parsed ++ "--" ++ rest ∧
      ∀ p r : String, v = p ++ "--" ++ r → parsed.length ≤ p.length := by
  obtain ⟨p0, r0, h0⟩ := h
  have hin : "--".data <:+: v.data := ⟨p0.data, r0.data, by simp [h0]⟩
  rcases indexFrom_spec "--".data v.data 0 with ⟨_, h2⟩ | ⟨p, r, h1, h2, h3⟩
  · exact absurd hin h2
  · refine ⟨⟨p⟩, ⟨r⟩, ?_, ?_, ?_⟩
    · have hlen : p.length ≤ v.length := by
        simp only [String.length, h1, List.length_append]
        omega
      simp only [sliceTo, strings.Index, h2, Nat.zero_add]
      rw [if_pos ⟨by omega, by exact_mod_cast hlen⟩]
      simp [h1]
    · apply String.ext
      simp [h1]
    · intro q s hq
      exact h3 q.data s.data (by simp [hq])

/-- A string without the delimiter makes the slice expression panic. -/
theorem sliceTo_Index_of_not_contains (v : String)
    (h : ¬ ∃ p r : String, v = p ++ "--" ++ r) :
    strings.Index v "--" = -1 ∧ sliceTo v (strings.Index v "--") = none := by
  rcases indexFrom_spec "--".data v.data 0 with ⟨h1, _⟩ | ⟨p, r, h1, _, _⟩
  · have hi : strings.Index v "--" = -1 := h1
    exact ⟨hi, by simp [sliceTo, hi]⟩
  · exact absurd ⟨⟨p⟩, ⟨r⟩, String.ext (by simp [h1])⟩ h

theorem loop_append [Zero F] (env : Env F T) (pre rest : List String)
    (acc tail : List (ZkStatusRsp F)) (calls : List Call)
    (hpre : ∀ n ∈ pre, ∃ r, nodeRecord env n = some r) :
    GetStatus.loop env (pre ++ rest) acc.length
        (acc ++ List.replicate pre.length (ZkStatusRsp.zero F) ++ tail) calls
      = GetStatus.loop env rest (acc.length + pre.length)
          (acc ++ pre.filterMap (nodeRecord env) ++ tail) (calls ++ pre.map nodeCall) := by
  induction pre generalizing acc calls with
  | nil => simp
  | cons n pre ih =>
    obtain ⟨r, hr⟩ := hpre n (List.mem_cons_self _ _)
    have hpre1 : ∀ m ∈ pre, ∃ r, nodeRecord env m = some r :=
      fun m hm => hpre m (List.mem_cons_of_mem _ hm)
    have hstep := ih (acc ++ [r]) (calls ++ [nodeCall n]) hpre1
    simp only [List.length_append, List.length_singleton, List.append_assoc,
      List.singleton_append] at hstep
    have hfm : (n :: pre).filterMap (nodeRecord env) = r :: pre.filterMap (nodeRecord env) :=
      List.filterMap_cons_some hr
    simp only [List.cons_append, GetStatus.loop, List.length_cons, List.replicate_succ,
      List.append_assoc, hfm, List.map_cons]
    unfold nodeRecord at hr
    cases hq : (getZkStatus env n ZkStatusDefaultPort).1 with
    | error e => simp [hq] at hr
    | ok body =>
      simp only [hq] at hr
      simp only [hr, set_length_append]
      have : acc.length + (pre.length + 1) = acc.length + 1 + pre.length := by omega
      rw [this]
      exact hstep

theorem filterMap_map_some {α β : Type} (f : α → Option β) (l : List α)
    (h : ∀ a ∈ l, ∃ b, f a = some b) : (l.filterMap f).map some = l.map f := by
  induction l with
  | nil => rfl
  | cons a l ih =>
    obtain ⟨b, hb⟩ := h a (List.mem_cons_self _ _)
    have := ih (fun x hx => h x (List.mem_cons_of_mem _ hx))
    simp [List.filterMap_cons_some hb, hb, this]

/-- The run of `GetStatus` when every pass of the loop stores a record. -/
theorem GetStatus_run_success [Zero F] (env : Env F T) (clusterName : String)
    (conf : CKManClickHouseConfig) (hconf : env.Load clusterName = some conf)
    (hok : ∀ n ∈ conf.ZkNodes, ∃ r, nodeRecord env n = some r) :
    GetStatus env clusterName =
      { calls := conf.ZkNodes.map nodeCall
        wrote := [⟨env.SUCCESS, env.GetMsg env.SUCCESS,
          .zkList (conf.ZkNodes.filterMap (nodeRecord env))⟩]
        panicked := false } := by
  have h := loop_append env conf.ZkNodes [] [] [] [] hok
  simp only [List.append_nil, List.length_nil, List.nil_append, Nat.zero_add] at h
  simp only [GetStatus, hconf, h, GetStatus.loop]

/-- The run of `GetStatus` when the first pass that stores no record is one whose query fails. -/
theorem GetStatus_run_query_fails [Zero F] (env : Env F T) (clusterName : String)
    (conf : CKManClickHouseConfig) (pre post : List String) (nf : String) (err : Error)
    (hconf : env.Load clusterName = some conf) (hnodes : conf.ZkNodes = pre ++ nf :: post)
    (hpre : ∀ n ∈ pre, ∃ r, nodeRecord env n = some r)
    (hnf : (getZkStatus env nf ZkStatusDefaultPort).1 = .error err) :
    GetStatus env clusterName =
      { calls := (pre ++ [nf]).map nodeCall
        wrote := [⟨env.GET_ZK_STATUS_FAIL, env.GetMsg env.GET_ZK_STATUS_FAIL,
          .detail ("get zookeeper node " ++ nf ++ " satus fail: " ++ err)⟩]
        panicked := false } := by
  have h := loop_append env pre (nf :: post) []
    (List.replicate (post.length + 1) (ZkStatusRsp.zero F)) [] hpre
  simp only [List.length_nil, List.nil_append, Nat.zero_add, ← List.replicate_add] at h
  have hl : conf.ZkNodes.length = pre.length + (post.length + 1) := by simp [hnodes]
  simp only [GetStatus, hconf, hl]
  rw [hnodes, h]
  simp [GetStatus.loop, hnf, nodeCall]

/-- The run of `GetStatus` when the first pass that stores no record is one whose reported
version lacks the delimiter. -/
theorem GetStatus_run_panics [Zero F] (env : Env F T) (clusterName : String)
    (conf : CKManClickHouseConfig) (pre post : List String) (nb : String) (body : Bytes)
    (hconf : env.Load clusterName = some conf) (hnodes : conf.ZkNodes = pre ++ nb :: post)
    (hpre : ∀ n ∈ pre, ∃ r, nodeRecord env n = some r)
    (hnb : (getZkStatus env nb ZkStatusDefaultPort).1 = .ok body)
    (hver : ¬ ∃ p r : String,
      (env.Unmarshal body { ZkStatusRsp.zero F with Host := nb }).Version = p ++ "--" ++ r) :
    GetStatus env clusterName =
      { calls := (pre ++ [nb]).map nodeCall, wrote := [], panicked := true } := by
  have h := loop_append env pre (nb :: post) []
    (List.replicate (post.length + 1) (ZkStatusRsp.zero F)) [] hpre
  simp only [List.length_nil, List.nil_append, Nat.zero_add, ← List.replicate_add] at h
  have hl : conf.ZkNodes.length = pre.length + (post.length + 1) := by simp [hnodes]
  have hd : decodeStatus env body { ZkStatusRsp.zero F with Host := nb } = none := by
    simp [decodeStatus, (sliceTo_Index_of_not_contains _ hver).2]
  simp only [GetStatus, hconf, hl]
  rw [hnodes, h]
  simp [GetStatus.loop, hnb, hd, nodeCall]

theorem nodeRecord_of_delimiter [Zero F] (env : Env F T) (node : String) (body : Bytes)
    (hb : (getZkStatus env node ZkStatusDefaultPort).1 = .ok body)
    (hv : ∃ p r : String,
      (env.Unmarshal body { ZkStatusRsp.zero F with Host := node }).Version = p ++ "--" ++ r) :
    ∃ record, decodeStatus env body { ZkStatusRsp.zero F with Host := node } = some record ∧
      nodeRecord env node = some record := by
  obtain ⟨parsed, rest, hs, -, -⟩ := sliceTo_Index_of_contains _ hv
  have hd : decodeStatus env body { ZkStatusRsp.zero F with Host := node } =
      some { env.Unmarshal body { ZkStatusRsp.zero F with Host := node } with
        Version := parsed } := by
    simp [decodeStatus, hs]
  exact ⟨_, hd, by simp [nodeRecord, hb, hd]⟩

/-! ## Node status aggregation -/

/-- C1: when the cluster resolves, every node query succeeds and every reported version
contains the delimiter, `GetStatus` writes one success envelope whose data is a list of
exactly as many records as there are nodes, the record at position `i` being the one decoded
from the answer of node `i`; with no nodes the list is empty and the envelope is still a
success. -/
theorem GetStatus_all_nodes_succeed [Zero F] (env : Env F T) (clusterName : String)
    (conf : CKManClickHouseConfig) (hconf : env.Load clusterName = some conf)
    (hok : ∀ node ∈ conf.ZkNodes, ∃ body,
      (getZkStatus env node ZkStatusDefaultPort).1 = .ok body ∧
      ∃ p r : String,
        (env.Unmarshal body { ZkStatusRsp.zero F with Host := node }).Version = p ++ "--" ++ r) :
    ∃ records : List (ZkStatusRsp F),
      GetStatus env clusterName =
        { calls := conf.ZkNodes.map (fun node => Call.getZkStatus node 8080)
          wrote := [⟨env.SUCCESS, env.GetMsg env.SUCCESS, .zkList records⟩]
          panicked := false } ∧
      records.length = conf.ZkNodes.length ∧
      (∀ i (hi : i < conf.ZkNodes.length), ∃ body record,
        (getZkStatus env conf.ZkNodes[i] ZkStatusDefaultPort).1 = .ok body ∧
        decodeStatus env body { ZkStatusRsp.zero F with Host := conf.ZkNodes[i] } = some record ∧
        records[i]? = some record) ∧
      (conf.ZkNodes = [] → records = []) := by
  have hdec : ∀ node ∈ conf.ZkNodes, ∃ body record,
      (getZkStatus env node ZkStatusDefaultPort).1 = .ok body ∧
      decodeStatus env body { ZkStatusRsp.zero F with Host := node } = some record ∧
      nodeRecord env node = some record := by
    intro node hn
    obtain ⟨body, hb, hv⟩ := hok node hn
    obtain ⟨record, hd, hr⟩ := nodeRecord_of_delimiter env node body hb hv
    exact ⟨body, record, hb, hd, hr⟩
  have hrec : ∀ n ∈ conf.ZkNodes, ∃ r, nodeRecord env n = some r := by
    intro n hn
    obtain ⟨_, record, _, _, h⟩ := hdec n hn
    exact ⟨record, h⟩
  have hm := filterMap_map_some (nodeRecord env) conf.ZkNodes hrec
  have hlen : (conf.ZkNodes.filterMap (nodeRecord env)).length = conf.ZkNodes.length := by
    simpa using congrArg List.length hm
  refine ⟨conf.ZkNodes.filterMap (nodeRecord env), ?_, hlen, ?_, ?_⟩
  · rw [GetStatus_run_success env clusterName conf hconf hrec]
    rfl
  · intro i hi
    obtain ⟨body, record, hb, hd, hnr⟩ := hdec conf.ZkNodes[i] (List.getElem_mem ..)
    refine ⟨body, record, hb, hd, ?_⟩
    have h := congrArg (fun l => l[i]?) hm
    simp only [List.getElem?_map, List.getElem?_eq_getElem hi, Option.map_some', hnr] at h
    cases hq : (conf.ZkNodes.filterMap (nodeRecord env))[i]? with
    | none => simp [hq] at h
    | some a =>
      simp only [hq, Option.map_some', Option.some.injEq] at h
      rw [h]
  · intro hnil
    simp [hnil]

/-- C1, sample: two healthy nodes give two records, in the order of the node list. -/
theorem GetStatus_all_nodes_succeed_witness :
    ∃ records : List (ZkStatusRsp Int),
      GetStatus healthyEnv "test" =
        { calls := ["zk1", "zk2"].map (fun node => Call.getZkStatus node 8080)
          wrote := [⟨200, "ok", .zkList records⟩]
          panicked := false } ∧
      records.length = 2 ∧
      (∀ i (hi : i < 2), ∃ body record,
        (getZkStatus healthyEnv (["zk1", "zk2"][i]) ZkStatusDefaultPort).1 = .ok body ∧
        decodeStatus healthyEnv body { ZkStatusRsp.zero Int with Host := ["zk1", "zk2"][i] }
          = some record ∧
        records[i]? = some record) ∧
      ((["zk1", "zk2"] : List String) = [] → records = []) :=
  GetStatus_all_nodes_succeed healthyEnv "test"
    { ZkNodes := ["zk1", "zk2"], Shards := [⟨[⟨"ck1"⟩, ⟨"ck2"⟩]⟩] } (by decide)
    (by
      intro node hn
      simp only [List.mem_cons, List.mem_singleton, List.not_mem_nil, or_false] at hn
      rcases hn with rfl | rfl
      · exact ⟨[1], by decide, "3.6.2", "abcdef123", by decide⟩
      · exact ⟨[2], by decide, "3.6.3", "0f1e2d", by decide⟩)

/-- C3: when the decoded version contains the delimiter, the version stored in the record is
the part before its first occurrence: the reported version is the stored one, then the
delimiter, then a remainder; no occurrence of the delimiter starts earlier; the stored
version contains no delimiter; and `3.6.2--abcdef123` is stored as `3.6.2`. -/
theorem decodeStatus_cuts_version (env : Env F T) (body : Bytes) (tmp : ZkStatusRsp F)
    (hv : ∃ p r : String, (env.Unmarshal body tmp).Version = p ++ "--" ++ r) :
    ∃ parsed rest : String,
      decodeStatus env body tmp = some { env.Unmarshal body tmp with Version := parsed } ∧
      (env.Unmarshal body tmp).Version = parsed ++ "--" ++ rest ∧
      (∀ p r : String, (env.Unmarshal body tmp).Version = p ++ "--" ++ r →
        parsed.length ≤ p.length) ∧
      (¬ ∃ a b : String, parsed = a ++ "--" ++ b) ∧
      ((env.Unmarshal body tmp).Version = "3.6.2--abcdef123" → parsed = "3.6.2") := by
  obtain ⟨parsed, rest, hs, hsplit, hmin⟩ := sliceTo_Index_of_contains _ hv
  refine ⟨parsed, rest, by simp [decodeStatus, hs], hsplit, hmin, ?_, ?_⟩
  · rintro ⟨a, b, hab⟩
    have h := hmin a (b ++ "--" ++ rest) (by rw [hsplit, hab]; simp [String.append_assoc])
    have hl : parsed.length = a.length + 2 + b.length := by
      rw [hab]
      simp [String.length_append]
      rfl
    omega
  · intro h
    rw [h] at hs
    have h2 : sliceTo "3.6.2--abcdef123" (strings.Index "3.6.2--abcdef123" "--")
        = some "3.6.2" := by decide
    rw [h2] at hs
    exact (Option.some.inj hs).symm

/-- C3, sample: the first node of the healthy deployment reports `3.6.2--abcdef123`. -/
theorem decodeStatus_cuts_version_witness :
    ∃ parsed rest : String,
      decodeStatus healthyEnv [1] { ZkStatusRsp.zero Int with Host := "zk1" }
        = some { healthyEnv.Unmarshal [1] { ZkStatusRsp.zero Int with Host := "zk1" } with
            Version := parsed } ∧
      (healthyEnv.Unmarshal [1] { ZkStatusRsp.zero Int with Host := "zk1" }).Version
        = parsed ++ "--" ++ rest ∧
      (∀ p r : String,
        (healthyEnv.Unmarshal [1] { ZkStatusRsp.zero Int with Host := "zk1" }).Version
          = p ++ "--" ++ r → parsed.length ≤ p.length) ∧
      (¬ ∃ a b : String, parsed = a ++ "--" ++ b) ∧
      ((healthyEnv.Unmarshal [1] { ZkStatusRsp.zero Int with Host := "zk1" }).Version
        = "3.6.2--abcdef123" → parsed = "3.6.2") :=
  decodeStatus_cuts_version healthyEnv [1] { ZkStatusRsp.zero Int with Host := "zk1" }
    ⟨"3.6.2", "abcdef123", by decide⟩

theorem loop_wrote_shape [Zero F] (env : Env F T) (nodes : List String) (index : Nat)
    (zkList : List (ZkStatusRsp F)) (calls : List Call) :
    ∀ e ∈ (GetStatus.loop env nodes index zkList calls).wrote,
      (e.code = env.SUCCESS ∧ e.msg = env.GetMsg env.SUCCESS ∧ ∃ l, e.data = .zkList l) ∨
      (e.code = env.GET_ZK_STATUS_FAIL ∧ e.msg = env.GetMsg env.GET_ZK_STATUS_FAIL ∧
        ∃ d, e.data = .detail d) := by
  induction nodes generalizing index zkList calls with
  | nil =>
    intro e he
    simp only [GetStatus.loop, List.mem_singleton] at he
    subst he
    exact Or.inl ⟨rfl, rfl, _, rfl⟩
  | cons n nodes ih =>
    intro e he
    simp only [GetStatus.loop] at he
    split at he
    · simp only [List.mem_singleton] at he
      subst he
      exact Or.inr ⟨rfl, rfl, _, rfl⟩
    · split at he
      · simp at he
      · exact ih _ _ _ e he

theorem loop_calls [Zero F] (env : Env F T) (nodes : List String) (index : Nat)
    (zkList : List (ZkStatusRsp F)) (calls : List Call) :
    ∃ k, (GetStatus.loop env nodes index zkList calls).calls
      = calls ++ (nodes.take k).map nodeCall := by
  induction nodes generalizing index zkList calls with
  | nil => exact ⟨0, by simp [GetStatus.loop]⟩
  | cons n nodes ih =>
    simp only [GetStatus.loop]
    split
    · exact ⟨1, by simp [nodeCall]⟩
    · split
      · exact ⟨1, by simp [nodeCall]⟩
      · obtain ⟨k, hk⟩ := ih (index + 1) (zkList.set index _)
          (calls ++ [Call.getZkStatus n ZkStatusDefaultPort])
        exact ⟨k + 1, by rw [hk]; simp [nodeCall]⟩

theorem loop_no_records_of_failure [Zero F] (env : Env F T) (nodes : List String) (index : Nat)
    (zkList : List (ZkStatusRsp F)) (calls : List Call)
    (hfail : ∃ n ∈ nodes, ∃ err, (getZkStatus env n ZkStatusDefaultPort).1 = .error err) :
    ∀ e ∈ (GetStatus.loop env nodes index zkList calls).wrote, ∃ d, e.data = .detail d := by
  induction nodes generalizing index zkList calls with
  | nil =>
    obtain ⟨n, hn, _⟩ := hfail
    simp at hn
  | cons n nodes ih =>
    intro e he
    simp only [GetStatus.loop] at he
    split at he
    · simp only [List.mem_singleton] at he
      subst he
      exact ⟨_, rfl⟩
    · rename_i body hbody
      split at he
      · simp at he
      · obtain ⟨m, hm, err, herr⟩ := hfail
        rcases List.mem_cons.mp hm with rfl | hm
        · rw [hbody] at herr
          cases herr
        · exact ih _ _ _ ⟨m, hm, err, herr⟩ e he

/-- All or nothing: when the cluster resolves and some node query fails, no envelope that
`GetStatus` writes carries a record list; whatever it writes is a failure with a detail text. -/
theorem GetStatus_all_or_nothing [Zero F] (env : Env F T) (clusterName : String)
    (conf : CKManClickHouseConfig) (hconf : env.Load clusterName = some conf)
    (hfail : ∃ n ∈ conf.ZkNodes, ∃ err,
      (getZkStatus env n ZkStatusDefaultPort).1 = .error err) :
    ∀ e ∈ (GetStatus env clusterName).wrote,
      e.code = env.GET_ZK_STATUS_FAIL ∧ e.msg = env.GetMsg env.GET_ZK_STATUS_FAIL ∧
        ∃ d, e.data = .detail d := by
  intro e he
  simp only [GetStatus, hconf] at he
  obtain ⟨d, hd⟩ := loop_no_records_of_failure env _ _ _ _ hfail e he
  rcases loop_wrote_shape env _ _ _ _ e he with ⟨_, _, l, hl⟩ | h
  · rw [hd] at hl
    cases hl
  · exact h

/-- C2, evaluation: with a first node that answers 200 but reports a version without
delimiter and a second node that refuses the connection, `GetStatus` queries the first node
only and ends in a panic; it writes no envelope, so no failure response is produced. -/
theorem GetStatus_refusedSecond_run :
    (getZkStatus refusedSecondEnv "zk1" 8080).1 = .ok [3] ∧
    (refusedSecondEnv.Unmarshal [3] { ZkStatusRsp.zero Int with Host := "zk1" }).Version
      = "3.6.2" ∧
    (getZkStatus refusedSecondEnv "zk2" 8080).1 = .error "connection refused" ∧
    GetStatus refusedSecondEnv "test" =
      { calls := [.getZkStatus "zk1" 8080], wrote := [], panicked := true } := by
  decide

/-- C4, evaluation: a node that answers 200 with the version `3.6.2`, or with no version
field at all, makes `strings.Index` return `-1` and the slice expression panic; `GetStatus`
writes no envelope, so no error is surfaced to the caller through `WrapMsg`. -/
theorem GetStatus_missing_delimiter_run :
    (plainVersionEnv.Unmarshal [3] { ZkStatusRsp.zero Int with Host := "zk1" }).Version
      = "3.6.2" ∧
    strings.Index "3.6.2" "--" = -1 ∧
    sliceTo "3.6.2" (-1) = none ∧
    GetStatus plainVersionEnv "test" =
      { calls := [.getZkStatus "zk1" 8080], wrote := [], panicked := true } ∧
    (noVersionEnv.Unmarshal [4] { ZkStatusRsp.zero Int with Host := "zk1" }).Version = "" ∧
    strings.Index "" "--" = -1 ∧
    GetStatus noVersionEnv "test" =
      { calls := [.getZkStatus "zk1" 8080], wrote := [], panicked := true } := by
  decide

/-- C8, evaluation: with a healthy first node, a second node that answers 200 with no
version field and a third node that answers 503, the first failing query is the third one;
yet `GetStatus` queries the first two nodes only, never the third, and writes no failure. -/
theorem GetStatus_lateFailure_run :
    (getZkStatus lateFailureEnv "zk1" 8080).1 = .ok [1] ∧
    (getZkStatus lateFailureEnv "zk2" 8080).1 = .ok [4] ∧
    (getZkStatus lateFailureEnv "zk3" 8080).1 = .error "503 Service Unavailable" ∧
    GetStatus lateFailureEnv "test" =
      { calls := [.getZkStatus "zk1" 8080, .getZkStatus "zk2" 8080]
        wrote := []
        panicked := true } := by
  decide

/-- C8, amended: when the node list is `pre`, then `nf`, then `post`, every node of `pre`
answers with a version that contains the delimiter and the query of `nf` fails with `err`,
`GetStatus` queries the nodes of `pre` and then `nf`, each once and in order, queries no node
of `post`, and writes a single failure whose detail contains the host `nf` and the cause
`err`. -/
theorem GetStatus_first_failure [Zero F] (env : Env F T) (clusterName : String)
    (conf : CKManClickHouseConfig) (pre post : List String) (nf : String) (err : Error)
    (hconf : env.Load clusterName = some conf) (hnodes : conf.ZkNodes = pre ++ nf :: post)
    (hpre : ∀ node ∈ pre, ∃ body,
      (getZkStatus env node ZkStatusDefaultPort).1 = .ok body ∧
      ∃ p r : String,
        (env.Unmarshal body { ZkStatusRsp.zero F with Host := node }).Version = p ++ "--" ++ r)
    (hnf : (getZkStatus env nf ZkStatusDefaultPort).1 = .error err) :
    ∃ detail : String,
      GetStatus env clusterName =
        { calls := (pre ++ [nf]).map (fun node => Call.getZkStatus node 8080)
          wrote := [⟨env.GET_ZK_STATUS_FAIL, env.GetMsg env.GET_ZK_STATUS_FAIL, .detail detail⟩]
          panicked := false } ∧
      detail = "get zookeeper node " ++ nf ++ " satus fail: " ++ err ∧
      (∃ a b : String, detail = a ++ nf ++ b) ∧
      (∃ a b : String, detail = a ++ err ++ b) := by
  have hrec : ∀ n ∈ pre, ∃ r, nodeRecord env n = some r := by
    intro n hn
    obtain ⟨body, hb, hv⟩ := hpre n hn
    obtain ⟨record, -, hr⟩ := nodeRecord_of_delimiter env n body hb hv
    exact ⟨record, hr⟩
  refine ⟨_, ?_, rfl, ⟨"get zookeeper node ", " satus fail: " ++ err, ?_⟩,
    ⟨"get zookeeper node " ++ nf ++ " satus fail: ", "", ?_⟩⟩
  · rw [GetStatus_run_query_fails env clusterName conf pre post nf err hconf hnodes hrec hnf]
    rfl
  · simp [String.append_assoc]
  · simp [String.append_assoc]

/-- C8, sample: the first node is healthy and the second refuses the connection. -/
theorem GetStatus_first_failure_witness :
    ∃ detail : String,
      GetStatus (sampleEnv ["zk1", "zk2", "zk3"] []
          [("http://zk1:8080/commands/mntr", ok200 [1])] (.ok [])) "test" =
        { calls := (["zk1"] ++ ["zk2"]).map (fun node => Call.getZkStatus node 8080)
          wrote := [⟨5080, "get zk status fail", .detail detail⟩]
          panicked := false } ∧
      detail = "get zookeeper node " ++ "zk2" ++ " satus fail: " ++ "connection refused" ∧
      (∃ a b : String, detail = a ++ "zk2" ++ b) ∧
      (∃ a b : String, detail = a ++ "connection refused" ++ b) :=
  GetStatus_first_failure
    (sampleEnv ["zk1", "zk2", "zk3"] [] [("http://zk1:8080/commands/mntr", ok200 [1])] (.ok []))
    "test" { ZkNodes := ["zk1", "zk2", "zk3"], Shards := [] } ["zk1"] ["zk3"] "zk2"
    "connection refused" (by decide) (by decide)
    (by
      intro node hn
      simp only [List.mem_singleton] at hn
      subst hn
      exact ⟨[1], by decide, "3.6.2", "abcdef123", by decide⟩)
    (by decide)

/-! ## Unknown cluster -/

/-- C7: when the cluster name does not resolve, `GetStatus` makes no call at all (so no node
is queried) and writes a single failure whose detail names the cluster, and
`GetReplicatedTableStatus` likewise makes no call (the coordination client is not asked) and
writes a single failure whose detail, a text and not a matrix, names the cluster. -/
theorem unknown_cluster_fails_without_calls [Zero F] (env : Env F T) (clusterName : String)
    (hconf : env.Load clusterName = none) :
    GetStatus env clusterName =
      { calls := []
        wrote := [⟨env.GET_ZK_STATUS_FAIL, env.GetMsg env.GET_ZK_STATUS_FAIL,
          .detail ("cluster " ++ clusterName ++ " does not exist")⟩]
        panicked := false } ∧
    GetReplicatedTableStatus env clusterName =
      { calls := []
        wrote := [⟨env.GET_ZK_TABLE_STATUS_FAIL, env.GetMsg env.GET_ZK_TABLE_STATUS_FAIL,
          .detail ("cluster " ++ clusterName ++ " does not exist")⟩]
        panicked := false } := by
  simp [GetStatus, GetReplicatedTableStatus, hconf]

/-- C7, sample: the healthy deployment has no cluster called `missing`. -/
theorem unknown_cluster_fails_without_calls_witness :
    GetStatus healthyEnv "missing" =
      { calls := []
        wrote := [⟨5080, "get zk status fail", .detail "cluster missing does not exist"⟩]
        panicked := false } ∧
    GetReplicatedTableStatus healthyEnv "missing" =
      { calls := []
        wrote := [⟨5081, "get zk table status fail", .detail "cluster missing does not exist"⟩]
        panicked := false } :=
  unknown_cluster_fails_without_calls healthyEnv "missing" (by decide)

/-! ## Replicated table status -/

/-- C5: when the cluster resolves and the coordination client returns a payload,
`GetReplicatedTableStatus` writes one success envelope whose header is the list of shards
mapped, in order, to the list of the host names of their replicas, in order: as many rows as
shards, row `i` as long as shard `i` has replicas, entry `(i, j)` the host name of replica `j`
of shard `i`; with no shards the header is empty and the envelope is still a success. -/
theorem GetReplicatedTableStatus_header (env : Env F T) (clusterName : String)
    (conf : CKManClickHouseConfig) (zkService : ZkService T) (tables : T)
    (hconf : env.Load clusterName = some conf)
    (hsvc : env.GetZkService clusterName = .ok zkService)
    (htab : zkService.GetReplicatedTableStatus conf = .ok tables) :
    ∃ header : List (List String),
      GetReplicatedTableStatus env clusterName =
        { calls := [.GetZkService clusterName, .GetReplicatedTableStatus conf]
          wrote := [⟨env.SUCCESS, env.GetMsg env.SUCCESS,
            .resp { Header := header, Tables := tables }⟩]
          panicked := false } ∧
      header = conf.Shards.map (fun shard => shard.Replicas.map (fun replica => replica.HostName)) ∧
      header.length = conf.Shards.length ∧
      header.map List.length = conf.Shards.map (fun shard => shard.Replicas.length) ∧
      (∀ i (hi : i < conf.Shards.length) j (hj : j < conf.Shards[i].Replicas.length),
        ∃ row, header[i]? = some row ∧ row[j]? = some (conf.Shards[i].Replicas[j]).HostName) ∧
      (conf.Shards = [] → header = []) := by
  refine ⟨buildHeader conf, ?_, buildHeader_eq_map conf, ?_, ?_, ?_, ?_⟩
  · simp [GetReplicatedTableStatus, hconf, hsvc, htab]
  · simp [buildHeader_eq_map]
  · simp [buildHeader_eq_map, Function.comp_def]
  · intro i hi j hj
    refine ⟨conf.Shards[i].Replicas.map (fun replica => replica.HostName), ?_, ?_⟩
    · simp [buildHeader_eq_map, List.getElem?_eq_getElem hi]
    · simp [List.getElem?_eq_getElem hj]
  · intro h
    simp [buildHeader_eq_map, h]

/-- C5, sample: one shard with the replicas `ck1` and `ck2` gives the header `[[ck1, ck2]]`. -/
theorem GetReplicatedTableStatus_header_witness :
    ∃ header : List (List String),
      GetReplicatedTableStatus healthyEnv "test" =
        { calls := [.GetZkService "test", .GetReplicatedTableStatus healthyConf]
          wrote := [⟨200, "ok", .resp { Header := header, Tables := ["t1", "t2"] }⟩]
          panicked := false } ∧
      header = [["ck1", "ck2"]] ∧
      header.length = 1 ∧
      header.map List.length = [2] ∧
      (∀ i (hi : i < healthyConf.Shards.length) j
          (hj : j < healthyConf.Shards[i].Replicas.length),
        ∃ row, header[i]? = some row ∧
          row[j]? = some (healthyConf.Shards[i].Replicas[j]).HostName) ∧
      (healthyConf.Shards = [] → header = []) :=
  GetReplicatedTableStatus_header healthyEnv "test" healthyConf
    { GetReplicatedTableStatus := fun _ => .ok ["t1", "t2"] } ["t1", "t2"]
    (by decide) rfl rfl

/-- C6: for any two successful requests, with whatever topologies and payloads, the tables
field of each matrix is exactly the payload the coordination client returned for it, and the
two headers are equal as soon as the two shard lists are: the header does not depend on the
payload, nor the tables field on the topology. -/
theorem GetReplicatedTableStatus_tables_pass_through (env env2 : Env F T)
    (clusterName clusterName2 : String) (conf conf2 : CKManClickHouseConfig)
    (zkService zkService2 : ZkService T) (tables tables2 : T)
    (hconf : env.Load clusterName = some conf)
    (hsvc : env.GetZkService clusterName = .ok zkService)
    (htab : zkService.GetReplicatedTableStatus conf = .ok tables)
    (hconf2 : env2.Load clusterName2 = some conf2)
    (hsvc2 : env2.GetZkService clusterName2 = .ok zkService2)
    (htab2 : zkService2.GetReplicatedTableStatus conf2 = .ok tables2) :
    ∃ header header2 : List (List String),
      (GetReplicatedTableStatus env clusterName).wrote =
        [⟨env.SUCCESS, env.GetMsg env.SUCCESS, .resp { Header := header, Tables := tables }⟩] ∧
      (GetReplicatedTableStatus env2 clusterName2).wrote =
        [⟨env2.SUCCESS, env2.GetMsg env2.SUCCESS,
          .resp { Header := header2, Tables := tables2 }⟩] ∧
      (conf.Shards = conf2.Shards → header = header2) := by
  refine ⟨buildHeader conf, buildHeader conf2, ?_, ?_, ?_⟩
  · simp [GetReplicatedTableStatus, hconf, hsvc, htab]
  · simp [GetReplicatedTableStatus, hconf2, hsvc2, htab2]
  · intro h
    simp [buildHeader_eq_map, h]

/-- C6, sample: two deployments with the same shards, other nodes and other payloads. -/
theorem GetReplicatedTableStatus_tables_pass_through_witness :
    ∃ header header2 : List (List String),
      (GetReplicatedTableStatus healthyEnv "test").wrote =
        [⟨200, "ok", .resp { Header := header, Tables := ["t1", "t2"] }⟩] ∧
      (GetReplicatedTableStatus otherPayloadEnv "test").wrote =
        [⟨200, "ok", .resp { Header := header2, Tables := ["t7"] }⟩] ∧
      (([⟨[⟨"ck1"⟩, ⟨"ck2"⟩]⟩] : List CkShard) = [⟨[⟨"ck1"⟩, ⟨"ck2"⟩]⟩] → header = header2) :=
  GetReplicatedTableStatus_tables_pass_through healthyEnv otherPayloadEnv "test" "test"
    { ZkNodes := ["zk1", "zk2"], Shards := [⟨[⟨"ck1"⟩, ⟨"ck2"⟩]⟩] }
    { ZkNodes := ["zk9"], Shards := [⟨[⟨"ck1"⟩, ⟨"ck2"⟩]⟩] }
    { GetReplicatedTableStatus := fun _ => .ok ["t1", "t2"] }
    { GetReplicatedTableStatus := fun _ => .ok ["t7"] } ["t1", "t2"] ["t7"]
    (by decide) rfl rfl (by decide) rfl rfl

/-! ## Failure codes -/

/-- C9, counterexample: a request for an unknown cluster, a request that meets an unreachable
node and a request that meets a node answering 503 fail in three different categories, and
the three envelopes carry the same code and message; so do, for the table status, an unknown
cluster and a failure of the coordination client. -/
theorem failure_categories_share_code :
    healthyEnv.Load "missing" = none ∧
    (GetStatus healthyEnv "missing").wrote =
      [⟨5080, "get zk status fail", .detail "cluster missing does not exist"⟩] ∧
    (GetStatus unreachableEnv "test").wrote =
      [⟨5080, "get zk status fail",
        .detail "get zookeeper node zk1 satus fail: connection refused"⟩] ∧
    (GetStatus errorResponseEnv "test").wrote =
      [⟨5080, "get zk status fail",
        .detail "get zookeeper node zk1 satus fail: 503 Service Unavailable"⟩] ∧
    (GetReplicatedTableStatus upstreamFailureEnv "missing").wrote =
      [⟨5081, "get zk table status fail", .detail "cluster missing does not exist"⟩] ∧
    (GetReplicatedTableStatus upstreamFailureEnv "test").wrote =
      [⟨5081, "get zk table status fail", .err "zk: connection closed"⟩] := by
  decide

/-- C9, amended: the code and message of a failure are fixed per handler, not per category.
Every envelope `GetStatus` writes is either the success envelope with a record list or carries
`GET_ZK_STATUS_FAIL` with its message and a detail text; every envelope
`GetReplicatedTableStatus` writes is either the success envelope with a matrix or carries
`GET_ZK_TABLE_STATUS_FAIL` with its message and a detail text or the error of the
coordination client. -/
theorem failure_code_per_handler [Zero F] (env : Env F T) (clusterName : String) :
    (∀ e ∈ (GetStatus env clusterName).wrote,
      (e.code = env.SUCCESS ∧ e.msg = env.GetMsg env.SUCCESS ∧ ∃ l, e.data = .zkList l) ∨
      (e.code = env.GET_ZK_STATUS_FAIL ∧ e.msg = env.GetMsg env.GET_ZK_STATUS_FAIL ∧
        ∃ d, e.data = .detail d)) ∧
    (∀ e ∈ (GetReplicatedTableStatus env clusterName).wrote,
      (e.code = env.SUCCESS ∧ e.msg = env.GetMsg env.SUCCESS ∧ ∃ m, e.data = .resp m) ∨
      (e.code = env.GET_ZK_TABLE_STATUS_FAIL ∧
        e.msg = env.GetMsg env.GET_ZK_TABLE_STATUS_FAIL ∧
        ((∃ d, e.data = .detail d) ∨ ∃ err, e.data = .err err))) := by
  constructor
  · intro e he
    unfold GetStatus at he
    split at he
    · simp only [List.mem_singleton] at he
      subst he
      exact Or.inr ⟨rfl, rfl, _, rfl⟩
    · exact loop_wrote_shape env _ _ _ _ e he
  · intro e he
    unfold GetReplicatedTableStatus at he
    split at he
    · simp only [List.mem_singleton] at he
      subst he
      exact Or.inr ⟨rfl, rfl, Or.inl ⟨_, rfl⟩⟩
    · split at he
      · simp only [List.mem_singleton] at he
        subst he
        exact Or.inr ⟨rfl, rfl, Or.inl ⟨_, rfl⟩⟩
      · split at he
        · simp only [List.mem_singleton] at he
          subst he
          exact Or.inr ⟨rfl, rfl, Or.inr ⟨_, rfl⟩⟩
        · simp only [List.mem_singleton] at he
          subst he
          exact Or.inl ⟨rfl, rfl, _, rfl⟩

/-! ## The diagnostic query -/

/-- C10: `getZkStatus` first builds a GET request for `http://<host>:<port>/commands/mntr`
and hands no other request to the client; it returns a body exactly when the request is
built, the client returns a response, the status code is 200 and the body is read without
error, and that body is the one read; on a response with another status code it returns the
status line as the error; and every call `GetStatus` makes is `getZkStatus` on port 8080. -/
theorem getZkStatus_contract [Zero F] (env : Env F T) (host : String) (port : Int) :
    mntrURL host port = "http://" ++ host ++ ":" ++ toString port ++ "/commands/mntr" ∧
    mntrURL "zk1" ZkStatusDefaultPort = "http://zk1:8080/commands/mntr" ∧
    (∃ rest, (getZkStatus env host port).2 = .NewRequest "GET" (mntrURL host port) :: rest ∧
      ∀ c ∈ rest, ∃ request,
        c = .Do request ∧ env.NewRequest "GET" (mntrURL host port) = .ok request) ∧
    (∀ body, (getZkStatus env host port).1 = .ok body ↔
      ∃ request response, env.NewRequest "GET" (mntrURL host port) = .ok request ∧
        env.Do request = .ok response ∧ response.StatusCode = 200 ∧
        response.Body = .ok body) ∧
    (∀ request response, env.NewRequest "GET" (mntrURL host port) = .ok request →
      env.Do request = .ok response → response.StatusCode ≠ 200 →
      (getZkStatus env host port).1 = .error response.Status) ∧
    (∀ clusterName, ∀ c ∈ (GetStatus env clusterName).calls,
      ∃ node, c = .getZkStatus node 8080) := by
  refine ⟨rfl, by decide, ?_, ?_, ?_, ?_⟩
  · cases h1 : env.NewRequest "GET" (mntrURL host port) with
    | error e => exact ⟨[], by simp [getZkStatus, h1], by simp⟩
    | ok request =>
      refine ⟨[.Do request], ?_, by simp⟩
      cases h2 : env.Do request with
      | error e => simp [getZkStatus, h1, h2]
      | ok response =>
        by_cases hc : response.StatusCode = 200
        · cases h3 : response.Body <;> simp [getZkStatus, h1, h2, hc, h3]
        · simp [getZkStatus, h1, h2, hc]
  · intro body
    cases h1 : env.NewRequest "GET" (mntrURL host port) with
    | error e => simp [getZkStatus, h1]
    | ok request =>
      cases h2 : env.Do request with
      | error e => simp [getZkStatus, h1, h2]
      | ok response =>
        by_cases hc : response.StatusCode = 200
        · cases h3 : response.Body <;> simp [getZkStatus, h1, h2, hc, h3]
        · simp [getZkStatus, h1, h2, hc]
  · intro request response h1 h2 hc
    simp [getZkStatus, h1, h2, hc]
  · intro clusterName c hc
    unfold GetStatus at hc
    split at hc
    · simp at hc
    · obtain ⟨k, hk⟩ := loop_calls env _ 0 _ [] (F := F)
      rw [hk] at hc
      simp only [List.nil_append, List.mem_map] at hc
      obtain ⟨node, _, rfl⟩ := hc
      exact ⟨node, rfl⟩

end Ckman
